import Mathlib

/-!
Verification of the Frame renderer state-synchronization layer.

A shallow embedding of the state-holding renderer modules of the Frame
application: the project-context module (src/renderer/state.js), the overlay
editor session, the file-tree keyboard navigator, and the tasks panel
(src/renderer/editor.js, three modules).  Mutable module-level variables
become structures; every JavaScript function that mutates them becomes a
Lean function from state to state, returning an explicit list of emitted
side effects (IPC sends, callback invocations, terminal commands, DOM focus
changes).  Asynchronous IPC responses are modelled as separate handler
functions, one per listener registered in setupIPC.
-/

namespace Frame

/-! ## state.js — project context (ProjectContext) -/

/-- Side effects emitted by the state.js module: the terminal session switch
(multiTerminalUI.setCurrentProject), the classification request
(ipcRenderer.send CHECK_IS_FRAME_PROJECT), and the three callback-list
fan-outs, each carrying the identifier of the invoked callback so that
invocation order is observable. -/
inductive StateEffect where
  | setCurrentProject : Option String → StateEffect
  | checkIsFrameProject : String → StateEffect
  | projectChangeCb : Nat → Option String → Option String → StateEffect
  | frameStatusCb : Nat → Bool → StateEffect
  | frameInitializedCb : Nat → String → StateEffect
  deriving Repr, DecidableEq

/-- Module-level mutable state of state.js.  Callback lists hold opaque
callback identifiers; `multiTerminalUI` records whether the MultiTerminalUI
reference has been set (non-null). -/
structure StateJs where
  currentProjectPath : Option String
  isCurrentProjectFrame : Bool
  onProjectChangeCallbacks : List Nat
  onFrameStatusChangeCallbacks : List Nat
  onFrameInitializedCallbacks : List Nat
  multiTerminalUI : Bool
  deriving Repr, DecidableEq

/-- state.js setIsFrameProject: stores the flag and invokes every
frame-status-change callback with it, in registration order. -/
def setIsFrameProject (s : StateJs) (isFrame : Bool) : StateJs × List StateEffect :=
  ({ s with isCurrentProjectFrame := isFrame },
   s.onFrameStatusChangeCallbacks.map (fun cb => StateEffect.frameStatusCb cb isFrame))

/-- state.js setProjectPath: records the previous path, stores the new one,
switches the terminal session when the MultiTerminalUI reference is set,
then either sends the classification request (non-null path) or synchronously
clears the Frame flag (null path), and finally invokes every project-change
callback with (path, previousPath) in registration order. -/
def setProjectPath (s : StateJs) (path : Option String) : StateJs × List StateEffect :=
  let previousPath := s.currentProjectPath
  let s1 := { s with currentProjectPath := path }
  let termEffs := if s1.multiTerminalUI then [StateEffect.setCurrentProject path] else []
  let frameStep : StateJs × List StateEffect :=
    match path with
    | some p => (s1, [StateEffect.checkIsFrameProject p])
    | none => setIsFrameProject s1 false
  (frameStep.1,
   termEffs ++ frameStep.2 ++
     frameStep.1.onProjectChangeCallbacks.map
       (fun cb => StateEffect.projectChangeCb cb path previousPath))

/-- state.js setupIPC, IS_FRAME_PROJECT_RESULT listener: the response is
applied only when its projectPath is strictly equal to the current
currentProjectPath; otherwise nothing happens. -/
def onIsFrameProjectResult (s : StateJs) (projectPath : String) (isFrame : Bool) :
    StateJs × List StateEffect :=
  if some projectPath = s.currentProjectPath then setIsFrameProject s isFrame
  else (s, [])

/-- state.js setupIPC, FRAME_PROJECT_INITIALIZED listener: on success for the
current project, forces the Frame flag true and invokes the
frame-initialized callbacks. -/
def onFrameProjectInitialized (s : StateJs) (projectPath : String) (success : Bool) :
    StateJs × List StateEffect :=
  if success && (some projectPath == s.currentProjectPath) then
    let r := setIsFrameProject s true
    (r.1, r.2 ++ r.1.onFrameInitializedCallbacks.map
      (fun cb => StateEffect.frameInitializedCb cb projectPath))
  else (s, [])

/-! ## editor.js — overlay editor (EditorSession) -/

/-- Module-level mutable state of the overlay editor module, together with
the textarea buffer (editorTextarea.value) and overlay visibility. -/
structure EditorState where
  currentEditingFile : Option String
  originalContent : String
  buffer : String
  isModified : Bool
  openedFromSource : Option String
  overlayVisible : Bool
  deriving Repr, DecidableEq

/-- editor.js checkModified: recomputes isModified as strict inequality of
the textarea buffer with the loaded-or-saved snapshot. -/
def checkModified (s : EditorState) : EditorState :=
  { s with isModified := s.buffer != s.originalContent }

/-- One buffer edit: the textarea input event replaces the buffer content
and the input listener runs checkModified.  The Tab-key handler (insert two
spaces at the cursor, then checkModified) is the instance where
`newBuffer = buffer.take start ++ "  " ++ buffer.drop finish`. -/
def applyEdit (s : EditorState) (newBuffer : String) : EditorState :=
  checkModified { s with buffer := newBuffer }

/-- A sequence of buffer edits, applied left to right. -/
def applyEdits (s : EditorState) (edits : List String) : EditorState :=
  edits.foldl applyEdit s

/-- editor.js setupIPC, FILE_CONTENT listener, success branch: loads the
file into the session, setting the snapshot and the buffer to the read
content, clearing isModified and showing the overlay.  The failure branch
leaves the state unchanged (console error only). -/
def onFileContent (s : EditorState) (success : Bool) (filePath content : String) : EditorState :=
  if success then
    { currentEditingFile := some filePath
      originalContent := content
      buffer := content
      isModified := false
      openedFromSource := s.openedFromSource
      overlayVisible := true }
  else s

/-- editor.js saveFile: when a file is open, sends a WRITE_FILE request
carrying the file path and the buffer content at call time; returns the
request payload, or none when no file is open (early return). -/
def saveFile (s : EditorState) : Option (String × String) :=
  match s.currentEditingFile with
  | some f => some (f, s.buffer)
  | none => none

/-- editor.js setupIPC, FILE_SAVED listener, success branch: replaces the
snapshot by the textarea buffer as it is at response arrival and clears
isModified.  The failure branch only updates the status line. -/
def onFileSaved (s : EditorState) (success : Bool) : EditorState :=
  if success then { s with originalContent := s.buffer, isModified := false }
  else s

/-- Availability of the two globally exposed focus re-entry functions
(window.fileTreeFocus, window.terminalFocus). -/
structure FocusEnv where
  fileTreeFocusAvailable : Bool
  terminalFocusAvailable : Bool
  deriving Repr, DecidableEq

/-- Focus side effects of closing the editor overlay. -/
inductive FocusEffect where
  | fileTreeFocusCall : FocusEffect
  | terminalFocusCall : FocusEffect
  deriving Repr, DecidableEq

/-- editor.js closeEditor: a dirty session asks for confirmation and aborts
(state untouched, no effects) when the user declines; otherwise the overlay
is hidden, focus is handed to the file tree when the session was opened from
it (falling back to the terminal), and the session fields are cleared. -/
def closeEditor (env : FocusEnv) (s : EditorState) (userConfirms : Bool) :
    EditorState × List FocusEffect :=
  if s.isModified && !userConfirms then (s, [])
  else
    let focusEffs :=
      if s.openedFromSource == some "fileTree" && env.fileTreeFocusAvailable then
        [FocusEffect.fileTreeFocusCall]
      else if env.terminalFocusAvailable then [FocusEffect.terminalFocusCall]
      else []
    ({ currentEditingFile := none
       originalContent := ""
       buffer := s.buffer
       isModified := false
       openedFromSource := none
       overlayVisible := false }, focusEffs)

/-! ## editor.js — file tree module (FileTreeNavigator)

The rendered DOM is a forest of `.file-item` elements in document order
(pre-order); each directory owns a `.folder-children` container whose
`display` style records expansion.  We model the DOM as a forest of nodes
identified by path, with the expansion flag on each directory. -/

/-- A rendered file-tree node: a file item, or a directory item with its
expansion flag and its rendered children. -/
inductive FileNode where
  | file : String → FileNode
  | dir : String → Bool → List FileNode → FileNode

mutual
/-- All `.file-item` paths of a node subtree in document (pre-order) order:
what querySelectorAll('.file-item') yields restricted to that subtree. -/
def pathsNode : FileNode → List String
  | FileNode.file p => [p]
  | FileNode.dir p _ cs => p :: pathsForest cs
/-- All `.file-item` paths of a forest in document order. -/
def pathsForest : List FileNode → List String
  | [] => []
  | n :: ns => pathsNode n ++ pathsForest ns
end

mutual
/-- editor.js getVisibleItems restricted to one subtree: the item itself,
then (only when the directory is expanded) the visible items of its
children.  An item survives the filter iff no enclosing folder-children
container is display:none, i.e. iff every strict ancestor directory is
expanded. -/
def visibleNode : FileNode → List String
  | FileNode.file p => [p]
  | FileNode.dir p e cs => p :: (if e then visibleForest cs else [])
/-- editor.js getVisibleItems over the whole rendered forest, in document
order. -/
def visibleForest : List FileNode → List String
  | [] => []
  | n :: ns => visibleNode n ++ visibleForest ns
end

mutual
/-- Stated from the claim, for comparison with getVisibleItems: path q lies
under a collapsed directory of the node, i.e. some directory of the subtree
is collapsed and q is strictly inside it. -/
def underCollapsedNode (q : String) : FileNode → Prop
  | FileNode.file _ => False
  | FileNode.dir _ e cs => (e = false ∧ q ∈ pathsForest cs) ∨ underCollapsedForest q cs
/-- Stated from the claim: path q has a collapsed ancestor directory
somewhere in the forest. -/
def underCollapsedForest (q : String) : List FileNode → Prop
  | [] => False
  | n :: ns => underCollapsedNode q n ∨ underCollapsedForest q ns
end

/-- Mutable state of the file-tree module: the rendered forest and the
focused item (focusedItem), identified by its path, none when null. -/
structure FileTreeState where
  tree : List FileNode
  focusedItem : Option String

/-- JavaScript Array.prototype.indexOf over the visible-items array: the
index of the first occurrence, or -1 when the element (or a null
focusedItem) is absent. -/
def jsIndexOf (items : List String) (x : Option String) : Int :=
  match x with
  | none => -1
  | some p =>
    match items.findIdx? (fun r => r == p) with
    | some i => (i : Int)
    | none => -1

/-- JavaScript array subscript: items[i] is undefined outside bounds. -/
def jsElemAt (items : List String) (i : Int) : Option String :=
  if 0 ≤ i then items[i.toNat]? else none

/-- editor.js handleKeydown, ArrowDown branch: recompute the visible items,
advance the index (wrapping past the end to 0), and focus that item. -/
def handleArrowDown (s : FileTreeState) : FileTreeState :=
  let items := visibleForest s.tree
  let currentIndex := jsIndexOf items s.focusedItem
  let newIndex : Int := if currentIndex < (items.length : Int) - 1 then currentIndex + 1 else 0
  { s with focusedItem := jsElemAt items newIndex }

/-- editor.js handleKeydown, ArrowUp branch: recompute the visible items,
decrease the index (wrapping before 0 to the last index), and focus that
item. -/
def handleArrowUp (s : FileTreeState) : FileTreeState :=
  let items := visibleForest s.tree
  let currentIndex := jsIndexOf items s.focusedItem
  let newIndex : Int := if currentIndex > 0 then currentIndex - 1 else (items.length : Int) - 1
  { s with focusedItem := jsElemAt items newIndex }

/-- A `.file-item` DOM element of the file tree, with its identity: the
render generation that created it (the DOM is only ever rebuilt whole by
the FILE_TREE_DATA listener) and the item path it carries. -/
structure FileTreeElem where
  render : Nat
  path : String
  deriving Repr, DecidableEq

/-- File-tree module state with DOM element identity: the current rendered
forest, the generation of the current render, and the remembered
focusedItem, which is a reference to an element of whatever render created
it — possibly a detached element of an earlier render. -/
structure FileTreeDom where
  tree : List FileNode
  render : Nat
  focusedItem : Option FileTreeElem

mutual
/-- renderFileTree starts every directory collapsed (the folder-children
container is created with display:none): the rendered node of an incoming
node, with its expansion flag cleared. -/
def renderNodeCollapsed : FileNode → FileNode
  | FileNode.file p => FileNode.file p
  | FileNode.dir p _ cs => FileNode.dir p false (renderForestCollapsed cs)
/-- The rendered forest of an incoming FILE_TREE_DATA forest, every
directory collapsed. -/
def renderForestCollapsed : List FileNode → List FileNode
  | [] => []
  | n :: ns => renderNodeCollapsed n :: renderForestCollapsed ns
end

/-- editor.js setupIPC (file tree), FILE_TREE_DATA listener: clearFileTree
empties the tree element (innerHTML = ""), detaching every element of the
previous render, then renderFileTree builds fresh elements for the pushed
forest (all directories collapsed); the render generation advances, while
the module's focusedItem variable keeps pointing at the now-detached
element of the old render. -/
def onFileTreeData (d : FileTreeDom) (files : List FileNode) : FileTreeDom :=
  { tree := renderForestCollapsed files
    render := d.render + 1
    focusedItem := d.focusedItem }

/-- editor.js focus (the file-tree focus re-entry, exposed as
window.fileTreeFocus): with no visible items it returns early; otherwise
it re-focuses the previously remembered element when
fileTreeElement.contains(focusedItem) holds — i.e. exactly when that
element belongs to the current render, every earlier render having been
detached whole by clearFileTree — and falls back to the first visible item
(an element of the current render) otherwise. -/
def fileTreeFocus (d : FileTreeDom) : FileTreeDom :=
  let items := visibleForest d.tree
  if items.isEmpty then d
  else
    let target : Option FileTreeElem :=
      match d.focusedItem with
      | some e =>
        if e.render == d.render then some e
        else items.head?.map (fun p => { render := d.render, path := p })
      | none => items.head?.map (fun p => { render := d.render, path := p })
    { d with focusedItem := target }

/-! ## editor.js — tasks panel module (TaskStore client view) -/

/-- A task as held in the pushed snapshot and rebuilt by getFilteredTasks
(status overridden from the bucket the task sits in).  Absent optional
fields are the empty string, matching JavaScript falsiness checks. -/
structure Task where
  id : String
  title : String
  description : String
  priority : String
  category : String
  status : String
  deriving Repr, DecidableEq

/-- The three status buckets of a pushed tasks payload. -/
structure TaskBuckets where
  pending : List Task
  inProgress : List Task
  completed : List Task
  deriving Repr, DecidableEq

/-- The tasks payload of a TASKS_DATA push, as stored into tasksData: an
object whose own tasks field holds the buckets (getFilteredTasks reads
tasksData.tasks), none when that field is absent. -/
structure TasksFile where
  tasks : Option TaskBuckets
  deriving Repr, DecidableEq

/-- Module-level mutable state of the tasks panel. -/
structure TasksPanelState where
  isVisible : Bool
  currentFilter : String
  tasksData : Option TasksFile
  deriving Repr, DecidableEq

/-- editor.js setupIPCListeners, TASKS_DATA listener: whenever the pushed
tasks payload is present it replaces tasksData and the panel re-renders;
the projectPath of the push is destructured but never consulted. -/
def onTasksData (s : TasksPanelState) (projectPath : String) (tasks : Option TasksFile) :
    TasksPanelState :=
  match tasks with
  | some t => { s with tasksData := some t }
  | none => s

/-- editor.js statusMap object literal inside getFilteredTasks: subscripting
with an unknown filter yields undefined. -/
def statusMap (filterName : String) : Option String :=
  if filterName == "pending" then some "pending"
  else if filterName == "inProgress" then some "in_progress"
  else if filterName == "completed" then some "completed"
  else none

/-- editor.js getFilteredTasks: flattens the three buckets in order,
stamping each task with its bucket status, then filters by the current
filter ("all" keeps everything; an unknown filter matches nothing since
every status differs from undefined). -/
def getFilteredTasks (s : TasksPanelState) : List Task :=
  match s.tasksData with
  | none => []
  | some td =>
    match td.tasks with
    | none => []
    | some buckets =>
      let allTasks :=
        buckets.pending.map (fun t => { t with status := "pending" }) ++
        buckets.inProgress.map (fun t => { t with status := "in_progress" }) ++
        buckets.completed.map (fun t => { t with status := "completed" })
      if s.currentFilter == "all" then allTasks
      else
        match statusMap s.currentFilter with
        | some st => allTasks.filter (fun t => t.status == st)
        | none => allTasks.filter (fun _ => false)

/-- Draft fields sent with a create or edit request. -/
structure TaskDraft where
  title : String
  description : String
  priority : String
  category : String
  deriving Repr, DecidableEq

/-- Side effects emitted by the tasks panel: terminal command dispatch,
task mutation requests over IPC, the delete request, toasts, the blocking
validation alert, hiding the modal, and console errors. -/
inductive PanelEffect where
  | terminalCommand : String → PanelEffect
  | updateTaskStatus : String → String → String → PanelEffect
  | addTask : String → TaskDraft → PanelEffect
  | updateTaskData : String → String → TaskDraft → PanelEffect
  | deleteTaskRequest : String → String → PanelEffect
  | toast : String → PanelEffect
  | alertMsg : String → PanelEffect
  | hideModal : PanelEffect
  | consoleError : String → PanelEffect
  deriving Repr, DecidableEq

/-- editor.js sendTaskToClaude, prompt composition: the title, then
". " and the description when present, then " (High priority)" when the
priority is high. -/
def taskPrompt (t : Task) : String :=
  let prompt := "Work on this task: " ++ t.title
  let prompt := if t.description != "" then prompt ++ ". " ++ t.description else prompt
  if t.priority == "high" then prompt ++ " (High priority)" else prompt

/-- editor.js sendTaskToClaude: dispatches the composed prompt through
window.terminalSendCommand when it is available, logging an error
otherwise. -/
def sendTaskToClaude (terminalSendCommandAvailable : Bool) (t : Task) : List PanelEffect :=
  if terminalSendCommandAvailable then [PanelEffect.terminalCommand (taskPrompt t)]
  else [PanelEffect.consoleError "Terminal sendCommand not available"]

/-- editor.js deleteTask: requires an active project, then sends the
DELETE_TASK request only when the user confirms. -/
def deleteTask (activePath : Option String) (confirmDelete : Bool) (taskId : String) :
    List PanelEffect :=
  match activePath with
  | none => []
  | some projectPath =>
    if confirmDelete then [PanelEffect.deleteTaskRequest projectPath taskId] else []

/-- editor.js handleTaskAction: requires an active project and a task with
the given id among the currently filtered tasks; start dispatches the
terminal prompt then requests status in_progress, complete requests
completed, pause and reopen request pending, delete defers to deleteTask;
no branch inspects the task's current status. -/
def handleTaskAction (activePath : Option String) (terminalSendCommandAvailable : Bool)
    (s : TasksPanelState) (taskId action : String) (confirmDelete : Bool) : List PanelEffect :=
  match activePath with
  | none => []
  | some projectPath =>
    match (getFilteredTasks s).find? (fun t => t.id == taskId) with
    | none => []
    | some task =>
      if action == "start" then
        sendTaskToClaude terminalSendCommandAvailable task ++
          [PanelEffect.updateTaskStatus projectPath taskId "in_progress",
           PanelEffect.toast "Task sent to Claude"]
      else if action == "complete" then
        [PanelEffect.updateTaskStatus projectPath taskId "completed",
         PanelEffect.toast "Task completed"]
      else if action == "pause" then
        [PanelEffect.updateTaskStatus projectPath taskId "pending",
         PanelEffect.toast "Task paused"]
      else if action == "reopen" then
        [PanelEffect.updateTaskStatus projectPath taskId "pending",
         PanelEffect.toast "Task reopened"]
      else if action == "delete" then
        deleteTask activePath confirmDelete taskId
      else []

/-- Drop leading whitespace characters from a character list. -/
def dropLeadingWs : List Char → List Char
  | [] => []
  | c :: cs => if c.isWhitespace then dropLeadingWs cs else c :: cs

/-- JavaScript String.prototype.trim: strip whitespace from both ends
(executable model over the character list). -/
def jsTrim (s : String) : String :=
  String.mk ((dropLeadingWs ((dropLeadingWs s.data).reverse)).reverse)

/-- The task form's input values at submit time. -/
structure TaskFormState where
  mode : String
  taskId : String
  titleInput : String
  descriptionInput : String
  priorityInput : String
  categoryInput : String
  deriving Repr, DecidableEq

/-- editor.js handleTaskFormSubmit: requires an active project; builds the
draft with trimmed title and description; an empty trimmed title raises the
validation alert and returns before any request (modal left open);
otherwise add mode sends one ADD_TASK request and edit mode (with a task
id) one UPDATE_TASK request, then the modal is hidden.  The panel's view
state is never touched. -/
def handleTaskFormSubmit (activePath : Option String) (panel : TasksPanelState)
    (form : TaskFormState) : TasksPanelState × List PanelEffect :=
  match activePath with
  | none => (panel, [])
  | some projectPath =>
    let draft : TaskDraft :=
      { title := jsTrim form.titleInput
        description := jsTrim form.descriptionInput
        priority := form.priorityInput
        category := form.categoryInput }
    if draft.title == "" then
      (panel, [PanelEffect.alertMsg "Task title is required"])
    else if form.mode == "add" then
      (panel, [PanelEffect.addTask projectPath draft, PanelEffect.hideModal])
    else if form.mode == "edit" && form.taskId != "" then
      (panel, [PanelEffect.updateTaskData projectPath form.taskId draft, PanelEffect.hideModal])
    else (panel, [PanelEffect.hideModal])

/-! ## Concrete states used by witnesses and counterexamples -/

/-- A concrete project-context state with project "/a" active, some
registered callbacks, and the terminal UI reference set. -/
def exStateA : StateJs :=
  { currentProjectPath := some "/a"
    isCurrentProjectFrame := false
    onProjectChangeCallbacks := [0, 1]
    onFrameStatusChangeCallbacks := [2]
    onFrameInitializedCallbacks := []
    multiTerminalUI := true }

/-- A concrete task. -/
def exTaskA : Task :=
  { id := "t1", title := "Fix bug", description := "", priority := "medium"
    category := "feature", status := "pending" }

/-- A concrete pushed tasks payload holding one pending task. -/
def exPushedFile : TasksFile :=
  { tasks := some { pending := [exTaskA], inProgress := [], completed := [] } }

/-- A concrete tasks-panel state with an empty client view. -/
def exPanelEmpty : TasksPanelState :=
  { isVisible := true, currentFilter := "all", tasksData := none }

/-! ## C1 — classification responses are matched to the current path -/

/-- C1: a classification response for path P delivered to the
IS_FRAME_PROJECT_RESULT listener is dropped whole (state untouched, no
frame-status callback invoked) when P is not value-equal to the current
active path, and sets isCurrentProjectFrame to the delivered flag when P
equals the active path. -/
theorem classification_response_stale_check (s : StateJs) (p : String) (isFrame : Bool) :
    (some p ≠ s.currentProjectPath → onIsFrameProjectResult s p isFrame = (s, [])) ∧
    (some p = s.currentProjectPath →
      (onIsFrameProjectResult s p isFrame).1.isCurrentProjectFrame = isFrame) := by
  constructor
  · intro h
    simp [onIsFrameProjectResult, h]
  · intro h
    simp [onIsFrameProjectResult, h, setIsFrameProject]

/-- Witness for C1 at the concrete state exStateA with active path "/a":
a response for "/b" is dropped and one for "/a" is applied. -/
theorem classification_response_stale_check_witness :
    onIsFrameProjectResult exStateA "/b" true = (exStateA, []) ∧
    (onIsFrameProjectResult exStateA "/a" true).1.isCurrentProjectFrame = true :=
  ⟨(classification_response_stale_check exStateA "/b" true).1 (by decide),
   (classification_response_stale_check exStateA "/a" true).2 (by decide)⟩

/-! ## C2 — task-snapshot pushes are not matched to the active path -/

/-- C2 counterexample: with active project "/a" and an empty client view, a
TASKS_DATA push keyed to "/b" is nevertheless applied: the view changes to
the pushed snapshot instead of being discarded. -/
theorem stale_tasks_push_applied :
    (some "/b" : Option String) ≠ exStateA.currentProjectPath ∧
    onTasksData exPanelEmpty "/b" (some exPushedFile) ≠ exPanelEmpty ∧
    (onTasksData exPanelEmpty "/b" (some exPushedFile)).tasksData = some exPushedFile := by
  refine ⟨by decide, ?_, by rfl⟩
  intro h
  have : (onTasksData exPanelEmpty "/b" (some exPushedFile)).tasksData = exPanelEmpty.tasksData := by
    rw [h]
  simp [onTasksData, exPanelEmpty] at this

/-- C2 amended: the TASKS_DATA listener applies every push whose tasks
payload is present, regardless of the push's projectPath and of the active
project; only a push with an absent payload leaves the view unchanged. -/
theorem tasks_push_applied_unconditionally (s : TasksPanelState) (projectPath : String)
    (tasks : Option TasksFile) :
    (∀ tf, tasks = some tf → onTasksData s projectPath tasks = { s with tasksData := some tf }) ∧
    (tasks = none → onTasksData s projectPath tasks = s) := by
  constructor
  · rintro tf rfl; rfl
  · rintro rfl; rfl

/-- Witness for C2's amended statement at concrete inputs. -/
theorem tasks_push_applied_unconditionally_witness :
    onTasksData exPanelEmpty "/b" (some exPushedFile) =
      { exPanelEmpty with tasksData := some exPushedFile } :=
  (tasks_push_applied_unconditionally exPanelEmpty "/b" (some exPushedFile)).1 exPushedFile rfl

/-! ## C3 — setActivePath behavior -/

/-- C3 counterexample: with the terminal UI reference set, setProjectPath
with a null path still emits a session-switch (setCurrentProject) effect,
refuting that the session-switch is emitted only for non-null paths. -/
theorem session_switch_emitted_for_null_path :
    StateEffect.setCurrentProject none ∈ (setProjectPath exStateA none).2 := by decide

/-- Helper: a list is a suffix of itself behind a cons and an append. -/
theorem suffix_cons_append {α : Type} (a : α) (xs l : List α) : l <:+ a :: (xs ++ l) :=
  (List.suffix_append xs l).trans (List.suffix_cons a (xs ++ l))

/-- Helper: a list is a suffix of itself behind two conses. -/
theorem suffix_cons_cons {α : Type} (a b : α) (l : List α) : l <:+ a :: b :: l :=
  (List.suffix_cons b l).trans (List.suffix_cons a (b :: l))

/-- C3 amended: setProjectPath records the previous path and stores the new
one; the session-switch effect, keyed by the (possibly null) new path, is
emitted iff the terminal UI reference is set; a classification request is
emitted exactly for a non-null path; a null path synchronously clears
isCurrentProjectFrame while a non-null path leaves it unchanged; and the
project-change callbacks are invoked with (path, previous) in registration
order, after all other effects. -/
theorem setProjectPath_behavior (s : StateJs) (path : Option String) :
    (setProjectPath s path).1.currentProjectPath = path ∧
    ((∃ q, StateEffect.setCurrentProject q ∈ (setProjectPath s path).2) ↔
      s.multiTerminalUI = true) ∧
    (∀ q, StateEffect.setCurrentProject q ∈ (setProjectPath s path).2 → q = path) ∧
    (∀ p, StateEffect.checkIsFrameProject p ∈ (setProjectPath s path).2 ↔ some p = path) ∧
    (path = none → (setProjectPath s path).1.isCurrentProjectFrame = false) ∧
    (path ≠ none → (setProjectPath s path).1.isCurrentProjectFrame = s.isCurrentProjectFrame) ∧
    (s.onProjectChangeCallbacks.map
        (fun cb => StateEffect.projectChangeCb cb path s.currentProjectPath)) <:+
      (setProjectPath s path).2 := by
  refine ⟨?_, ?_, ?_, ?_, ?_, ?_, ?_⟩
  · cases path <;> rfl
  · cases path <;> cases hm : s.multiTerminalUI <;>
      simp [setProjectPath, setIsFrameProject, hm]
  · intro q hq
    cases path <;> cases hm : s.multiTerminalUI <;>
      simp [setProjectPath, setIsFrameProject, hm] at hq <;>
      first
        | exact hq
        | exact hq.elim
  · intro p
    cases path <;> cases hm : s.multiTerminalUI <;>
      simp [setProjectPath, setIsFrameProject, hm]
  · rintro rfl
    cases hm : s.multiTerminalUI <;> simp [setProjectPath, setIsFrameProject, hm]
  · intro hp
    match path with
    | some p => cases hm : s.multiTerminalUI <;> simp [setProjectPath, hm]
    | none => exact absurd rfl hp
  · cases path <;> cases hm : s.multiTerminalUI <;>
      simp [setProjectPath, setIsFrameProject, hm] <;>
      first
        | exact List.suffix_append _ _
        | exact suffix_cons_append _ _ _
        | exact suffix_cons_cons _ _ _
        | exact List.suffix_cons _ _

/-- Witness for C3's amended statement: at exStateA (terminal UI set) with
new path "/b", the classification request for "/b" is emitted and the Frame
flag is unchanged. -/
theorem setProjectPath_behavior_witness :
    StateEffect.checkIsFrameProject "/b" ∈ (setProjectPath exStateA (some "/b")).2 ∧
    (setProjectPath exStateA (some "/b")).1.isCurrentProjectFrame =
      exStateA.isCurrentProjectFrame :=
  ⟨((setProjectPath_behavior exStateA (some "/b")).2.2.2.1 "/b").mpr rfl,
   (setProjectPath_behavior exStateA (some "/b")).2.2.2.2.2.1 (by decide)⟩

/-! ## C4 — isModified tracks buffer-vs-snapshot inequality -/

/-- The derived-dirty property of an editor session: isModified is set
exactly when the buffer differs from the last-loaded-or-saved snapshot. -/
def dirtyInvariant (s : EditorState) : Prop :=
  s.isModified = true ↔ s.buffer ≠ s.originalContent

/-- Helper: every single edit re-establishes the dirty property and leaves
the snapshot untouched, hence so does any edit sequence. -/
theorem applyEdits_dirtyInvariant (edits : List String) (s : EditorState) :
    (edits ≠ [] ∨ dirtyInvariant s) →
    (dirtyInvariant (applyEdits s edits) ∧
     (applyEdits s edits).originalContent = s.originalContent) := by
  induction edits generalizing s with
  | nil =>
    intro h
    rcases h with h | h
    · exact absurd rfl h
    · exact ⟨h, rfl⟩
  | cons e es ih =>
    intro _
    have h1 : dirtyInvariant (applyEdit s e) := by
      simp [applyEdit, checkModified, dirtyInvariant, bne_iff_ne]
    have h2 := ih (applyEdit s e) (Or.inr h1)
    exact ⟨h2.1, h2.2⟩

/-- C4: after any sequence of buffer edits to a session freshly loaded from
a FILE_CONTENT response or freshly marked clean by a FILE_SAVED response —
including an edit sequence that ends by reverting the buffer to content
equal to the snapshot — isModified holds exactly when the buffer differs
from the snapshot, and the snapshot is the loaded (resp. saved) content. -/
theorem isModified_iff_differs (s : EditorState) (filePath content : String)
    (edits : List String) :
    dirtyInvariant (applyEdits (onFileContent s true filePath content) edits) ∧
    (applyEdits (onFileContent s true filePath content) edits).originalContent = content ∧
    dirtyInvariant (applyEdits (onFileSaved s true) edits) := by
  have hload : dirtyInvariant (onFileContent s true filePath content) := by
    simp [onFileContent, dirtyInvariant]
  have hsave : dirtyInvariant (onFileSaved s true) := by
    simp [onFileSaved, dirtyInvariant]
  have h1 := applyEdits_dirtyInvariant edits (onFileContent s true filePath content)
    (Or.inr hload)
  have h2 := applyEdits_dirtyInvariant edits (onFileSaved s true) (Or.inr hsave)
  refine ⟨h1.1, ?_, h2.1⟩
  rw [h1.2]
  simp [onFileContent]

/-- A concrete closed editor state. -/
def exEditorClosed : EditorState :=
  { currentEditingFile := none, originalContent := "", buffer := "", isModified := false
    openedFromSource := none, overlayVisible := false }

/-- Witness for C4: load "hello", edit to "hellox", revert to "hello"; the
dirty property holds along the way and the final state is clean. -/
theorem isModified_iff_differs_witness :
    dirtyInvariant
      (applyEdits (onFileContent exEditorClosed true "/a/f.txt" "hello") ["hellox", "hello"]) ∧
    (applyEdits (onFileContent exEditorClosed true "/a/f.txt" "hello")
        ["hellox", "hello"]).isModified = false :=
  ⟨(isModified_iff_differs exEditorClosed "/a/f.txt" "hello" ["hellox", "hello"]).1,
   by decide⟩

/-! ## C6 — declining the close confirmation aborts the close -/

/-- C6: closing a dirty session while the user declines the confirmation
returns with the whole session state unchanged (open file, snapshot,
buffer, dirty flag, recorded origin, overlay visibility) and requests no
focus restore. -/
theorem close_dirty_declined (env : FocusEnv) (s : EditorState)
    (hdirty : s.isModified = true) :
    closeEditor env s false = (s, []) := by
  simp [closeEditor, hdirty]

/-- A concrete dirty editor session opened from the file tree. -/
def exEditorDirty : EditorState :=
  { currentEditingFile := some "/a/f.txt", originalContent := "hello", buffer := "hellox"
    isModified := true, openedFromSource := some "fileTree", overlayVisible := true }

/-- Witness for C6 at a concrete dirty session. -/
theorem close_dirty_declined_witness :
    closeEditor ⟨true, true⟩ exEditorDirty false = (exEditorDirty, []) :=
  close_dirty_declined ⟨true, true⟩ exEditorDirty (by decide)

/-! ## C10 — the saved snapshot is the buffer at response arrival -/

/-- C10: when a save was requested (capturing the buffer as the written
content) and the buffer was edited before the FILE_SAVED success response
arrives, the handler replaces the snapshot by the buffer at arrival time —
not by the content that was written — and marks the session clean, so the
interleaved edits are considered saved even though they were never
written. -/
theorem saved_snapshot_is_arrival_buffer (s : EditorState) (f sent : String)
    (edits : List String) (hsave : saveFile s = some (f, sent)) :
    sent = s.buffer ∧
    (onFileSaved (applyEdits s edits) true).originalContent = (applyEdits s edits).buffer ∧
    (onFileSaved (applyEdits s edits) true).isModified = false ∧
    ((applyEdits s edits).buffer ≠ sent →
      (onFileSaved (applyEdits s edits) true).originalContent ≠ sent) := by
  have hsent : sent = s.buffer := by
    cases hc : s.currentEditingFile with
    | none => simp [saveFile, hc] at hsave
    | some g =>
      simp [saveFile, hc] at hsave
      exact hsave.2.symm
  refine ⟨hsent, by simp [onFileSaved], by simp [onFileSaved], ?_⟩
  intro hne
  simpa [onFileSaved] using hne

/-- A concrete clean session whose buffer "hello" is being saved. -/
def exEditorSaving : EditorState :=
  { currentEditingFile := some "/a/f.txt", originalContent := "old", buffer := "hello"
    isModified := true, openedFromSource := some "fileTree", overlayVisible := true }

/-- Witness for C10: save "hello", edit to "hello world" before the
response arrives; on success the snapshot becomes "hello world" and the
session is clean, though "hello world" was never written. -/
theorem saved_snapshot_is_arrival_buffer_witness :
    (onFileSaved (applyEdits exEditorSaving ["hello world"]) true).originalContent ≠ "hello" ∧
    (onFileSaved (applyEdits exEditorSaving ["hello world"]) true).isModified = false := by
  have h := saved_snapshot_is_arrival_buffer exEditorSaving "/a/f.txt" "hello"
    ["hello world"] (by decide)
  exact ⟨h.2.2.2 (by decide), h.2.2.1⟩

/-! ## C5 — task actions: status mapping and terminal dispatch -/

/-- Helper: the prompt composed by sendTaskToClaude, written as the claim
reads it: the title, then ". " and the description when present, then
" (High priority)" when the priority is high. -/
theorem taskPrompt_eq (t : Task) :
    taskPrompt t = "Work on this task: " ++ t.title ++
      (if t.description != "" then ". " ++ t.description else "") ++
      (if t.priority == "high" then " (High priority)" else "") := by
  cases hd : t.description != "" <;> cases hp : t.priority == "high" <;>
    simp [taskPrompt, hd, hp, String.append_assoc]

/-- C5: for a task found in the current filtered view — whatever its
current status — the start action dispatches exactly one terminal command,
equal to the composed prompt, and requests status in_progress; complete
requests completed; pause and reopen request pending; none of them inspects
the task's current status. -/
theorem task_action_dispatch (pp : String) (s : TasksPanelState) (taskId : String)
    (t : Task) (confirmDelete : Bool)
    (hfind : (getFilteredTasks s).find? (fun u => u.id == taskId) = some t) :
    handleTaskAction (some pp) true s taskId "start" confirmDelete =
      [PanelEffect.terminalCommand
         ("Work on this task: " ++ t.title ++
          (if t.description != "" then ". " ++ t.description else "") ++
          (if t.priority == "high" then " (High priority)" else "")),
       PanelEffect.updateTaskStatus pp taskId "in_progress",
       PanelEffect.toast "Task sent to Claude"] ∧
    handleTaskAction (some pp) true s taskId "complete" confirmDelete =
      [PanelEffect.updateTaskStatus pp taskId "completed",
       PanelEffect.toast "Task completed"] ∧
    handleTaskAction (some pp) true s taskId "pause" confirmDelete =
      [PanelEffect.updateTaskStatus pp taskId "pending",
       PanelEffect.toast "Task paused"] ∧
    handleTaskAction (some pp) true s taskId "reopen" confirmDelete =
      [PanelEffect.updateTaskStatus pp taskId "pending",
       PanelEffect.toast "Task reopened"] := by
  refine ⟨?_, ?_, ?_, ?_⟩ <;>
    simp [handleTaskAction, hfind, sendTaskToClaude, taskPrompt_eq]

/-- A concrete panel whose view holds the one pending task exTaskA. -/
def exPanelWithTask : TasksPanelState :=
  { isVisible := true, currentFilter := "all", tasksData := some exPushedFile }

/-- Witness for C5: starting exTaskA (empty description, medium priority)
sends exactly the terminal command "Work on this task: Fix bug" and
requests in_progress. -/
theorem task_action_dispatch_witness :
    handleTaskAction (some "/a") true exPanelWithTask "t1" "start" false =
      [PanelEffect.terminalCommand "Work on this task: Fix bug",
       PanelEffect.updateTaskStatus "/a" "t1" "in_progress",
       PanelEffect.toast "Task sent to Claude"] := by
  have h := task_action_dispatch "/a" exPanelWithTask "t1" exTaskA false (by decide)
  rw [h.1]
  decide

/-! ## C9 — task creation requires a non-empty trimmed title -/

/-- C9: with an active project, submitting the task form with a title that
trims to empty raises the validation alert and sends nothing — the panel
view is returned unchanged and the only effect is the alert; a non-empty
trimmed title in add mode sends exactly one ADD_TASK request carrying the
trimmed draft. -/
theorem create_requires_nonempty_title (pp : String) (panel : TasksPanelState)
    (form : TaskFormState) :
    (jsTrim form.titleInput = "" →
      handleTaskFormSubmit (some pp) panel form =
        (panel, [PanelEffect.alertMsg "Task title is required"])) ∧
    (jsTrim form.titleInput ≠ "" → form.mode = "add" →
      handleTaskFormSubmit (some pp) panel form =
        (panel,
         [PanelEffect.addTask pp
            { title := jsTrim form.titleInput, description := jsTrim form.descriptionInput
              priority := form.priorityInput, category := form.categoryInput },
          PanelEffect.hideModal])) := by
  constructor
  · intro h
    simp [handleTaskFormSubmit, h]
  · intro h hm
    simp [handleTaskFormSubmit, h, hm]

/-- A concrete form submission whose title is whitespace only. -/
def exFormBlankTitle : TaskFormState :=
  { mode := "add", taskId := "", titleInput := "   ", descriptionInput := "d"
    priorityInput := "high", categoryInput := "feature" }

/-- A concrete valid form submission in add mode. -/
def exFormGood : TaskFormState :=
  { mode := "add", taskId := "", titleInput := " Fix bug ", descriptionInput := ""
    priorityInput := "medium", categoryInput := "feature" }

/-- Witness for C9: the whitespace-only title only alerts; the valid title
sends exactly one create request with the trimmed draft. -/
theorem create_requires_nonempty_title_witness :
    handleTaskFormSubmit (some "/a") exPanelEmpty exFormBlankTitle =
      (exPanelEmpty, [PanelEffect.alertMsg "Task title is required"]) ∧
    handleTaskFormSubmit (some "/a") exPanelEmpty exFormGood =
      (exPanelEmpty,
       [PanelEffect.addTask "/a"
          { title := "Fix bug", description := "", priority := "medium", category := "feature" },
        PanelEffect.hideModal]) := by
  constructor
  · exact (create_requires_nonempty_title "/a" exPanelEmpty exFormBlankTitle).1 (by decide)
  · have h := (create_requires_nonempty_title "/a" exPanelEmpty exFormGood).2
      (by decide) (by decide)
    rw [h]
    decide

/-! ## File-tree lemmas: visibility vs collapsed ancestors -/

mutual
/-- Helper: every visible item of a subtree is an item of that subtree. -/
theorem visible_subset_paths_node (q : String) (n : FileNode) (hv : q ∈ visibleNode n) :
    q ∈ pathsNode n := by
  cases n with
  | file p => simpa [visibleNode, pathsNode] using hv
  | dir p e cs =>
    cases e with
    | false =>
      simp [visibleNode] at hv
      simp [pathsNode, hv]
    | true =>
      simp [visibleNode] at hv
      rcases hv with rfl | hv
      · simp [pathsNode]
      · simp [pathsNode]
        exact Or.inr (visible_subset_paths_forest q cs hv)
/-- Helper: every visible item of a forest is an item of that forest. -/
theorem visible_subset_paths_forest (q : String) (ns : List FileNode)
    (hv : q ∈ visibleForest ns) : q ∈ pathsForest ns := by
  cases ns with
  | nil => simpa [visibleForest] using hv
  | cons n ms =>
    simp [visibleForest] at hv
    simp [pathsForest]
    rcases hv with hv | hv
    · exact Or.inl (visible_subset_paths_node q n hv)
    · exact Or.inr (visible_subset_paths_forest q ms hv)
end

mutual
/-- Helper: a path lying under a collapsed directory of a subtree is an
item of that subtree. -/
theorem underCollapsed_mem_node (q : String) (n : FileNode) (h : underCollapsedNode q n) :
    q ∈ pathsNode n := by
  cases n with
  | file p => simp [underCollapsedNode] at h
  | dir p e cs =>
    simp only [underCollapsedNode] at h
    simp only [pathsNode, List.mem_cons]
    rcases h with ⟨_, hq⟩ | h
    · exact Or.inr hq
    · exact Or.inr (underCollapsed_mem_forest q cs h)
/-- Helper: a path lying under a collapsed directory of a forest is an
item of that forest. -/
theorem underCollapsed_mem_forest (q : String) (ns : List FileNode)
    (h : underCollapsedForest q ns) : q ∈ pathsForest ns := by
  cases ns with
  | nil => simp [underCollapsedForest] at h
  | cons n ms =>
    simp only [underCollapsedForest] at h
    simp only [pathsForest, List.mem_append]
    rcases h with h | h
    · exact Or.inl (underCollapsed_mem_node q n h)
    · exact Or.inr (underCollapsed_mem_forest q ms h)
end

mutual
/-- Helper: when the subtree's item paths are pairwise distinct, a visible
item of the subtree has no collapsed ancestor directory in it. -/
theorem visible_not_collapsed_node (q : String) (n : FileNode)
    (hnd : (pathsNode n).Nodup) (hv : q ∈ visibleNode n) : ¬ underCollapsedNode q n := by
  cases n with
  | file p => simp [underCollapsedNode]
  | dir p e cs =>
    simp only [pathsNode, List.nodup_cons] at hnd
    obtain ⟨hp, hnd'⟩ := hnd
    intro h
    simp only [underCollapsedNode] at h
    cases e with
    | false =>
      simp [visibleNode] at hv
      subst hv
      rcases h with ⟨_, hq⟩ | h
      · exact hp hq
      · exact hp (underCollapsed_mem_forest q cs h)
    | true =>
      simp [visibleNode] at hv
      rcases hv with rfl | hv
      · rcases h with ⟨he, _⟩ | h
        · cases he
        · exact hp (underCollapsed_mem_forest q cs h)
      · rcases h with ⟨he, _⟩ | h
        · cases he
        · exact visible_not_collapsed_forest q cs hnd' hv h
/-- Helper: when the forest's item paths are pairwise distinct, a visible
item of the forest has no collapsed ancestor directory in it. -/
theorem visible_not_collapsed_forest (q : String) (ns : List FileNode)
    (hnd : (pathsForest ns).Nodup) (hv : q ∈ visibleForest ns) :
    ¬ underCollapsedForest q ns := by
  cases ns with
  | nil => simp [underCollapsedForest]
  | cons n ms =>
    simp only [pathsForest] at hnd
    rw [List.nodup_append] at hnd
    obtain ⟨hnd1, hnd2, hdisj⟩ := hnd
    simp only [visibleForest, List.mem_append] at hv
    intro h
    simp only [underCollapsedForest] at h
    rcases h with h | h
    · rcases hv with hv | hv
      · exact visible_not_collapsed_node q n hnd1 hv h
      · exact hdisj (underCollapsed_mem_node q n h) (visible_subset_paths_forest q ms hv)
    · rcases hv with hv | hv
      · exact hdisj (visible_subset_paths_node q n hv) (underCollapsed_mem_forest q ms h)
      · exact visible_not_collapsed_forest q ms hnd2 hv h
end

/-- Helper: a JavaScript indexOf result is either -1 or a valid index. -/
theorem jsIndexOf_cases (items : List String) (x : Option String) :
    jsIndexOf items x = -1 ∨
      (0 ≤ jsIndexOf items x ∧ jsIndexOf items x < (items.length : Int)) := by
  cases x with
  | none => exact Or.inl rfl
  | some p =>
    cases hf : items.findIdx? (fun r => r == p) with
    | none => exact Or.inl (by simp [jsIndexOf, hf])
    | some i =>
      right
      have hi : i < items.length := (List.findIdx?_eq_some_iff_findIdx_eq.mp hf).1
      refine ⟨by simp [jsIndexOf, hf], ?_⟩
      simp only [jsIndexOf, hf]
      exact_mod_cast hi

/-- Helper: a defined JavaScript subscript yields a list member. -/
theorem jsElemAt_mem (items : List String) (i : Int) (q : String)
    (h : jsElemAt items i = some q) : q ∈ items := by
  by_cases h0 : 0 ≤ i
  · simp only [jsElemAt, if_pos h0] at h
    have := List.getElem?_eq_some_iff.mp h
    obtain ⟨hlt, rfl⟩ := this
    exact List.getElem_mem hlt
  · simp [jsElemAt, h0] at h

/-- Helper: a subscript within bounds is defined. -/
theorem jsElemAt_isSome (items : List String) (i : Int) (h0 : 0 ≤ i)
    (hl : i < (items.length : Int)) : ∃ q, jsElemAt items i = some q := by
  have hlt : i.toNat < items.length := by omega
  exact ⟨items[i.toNat], by simp [jsElemAt, h0, List.getElem?_eq_getElem hlt]⟩

/-! ## C8 — arrow navigation stays on visible items and wraps -/

/-- C8: in a rendered tree with distinct item paths — whatever the
collapse/expand history that produced the expansion flags — ArrowDown and
ArrowUp always land the cursor on a member of the current visible list,
never on an item with a collapsed ancestor directory; and when the cursor
sits at visible index i, ArrowDown moves it to index (i+1) mod length and
ArrowUp to index (i+length-1) mod length, wrapping circularly at both
ends. -/
theorem arrow_navigation_stays_visible (s : FileTreeState)
    (hnd : (pathsForest s.tree).Nodup)
    (hne : visibleForest s.tree ≠ []) :
    (∃ q, (handleArrowDown s).focusedItem = some q ∧ q ∈ visibleForest s.tree ∧
      ¬ underCollapsedForest q s.tree) ∧
    (∃ q, (handleArrowUp s).focusedItem = some q ∧ q ∈ visibleForest s.tree ∧
      ¬ underCollapsedForest q s.tree) ∧
    (∀ p i, s.focusedItem = some p →
      (visibleForest s.tree).findIdx? (fun r => r == p) = some i →
      (handleArrowDown s).focusedItem =
        (visibleForest s.tree)[(i + 1) % (visibleForest s.tree).length]? ∧
      (handleArrowUp s).focusedItem =
        (visibleForest s.tree)[(i + (visibleForest s.tree).length - 1) %
          (visibleForest s.tree).length]?) := by
  have hlen : 0 < (visibleForest s.tree).length := List.length_pos.mpr hne
  have hdownIdx :
      0 ≤ (if jsIndexOf (visibleForest s.tree) s.focusedItem <
              ((visibleForest s.tree).length : Int) - 1 then
            jsIndexOf (visibleForest s.tree) s.focusedItem + 1 else 0) ∧
      (if jsIndexOf (visibleForest s.tree) s.focusedItem <
              ((visibleForest s.tree).length : Int) - 1 then
            jsIndexOf (visibleForest s.tree) s.focusedItem + 1 else 0) <
        ((visibleForest s.tree).length : Int) := by
    rcases jsIndexOf_cases (visibleForest s.tree) s.focusedItem with h | ⟨h0, h1⟩ <;>
      (split <;> omega)
  have hupIdx :
      0 ≤ (if jsIndexOf (visibleForest s.tree) s.focusedItem > 0 then
            jsIndexOf (visibleForest s.tree) s.focusedItem - 1
          else ((visibleForest s.tree).length : Int) - 1) ∧
      (if jsIndexOf (visibleForest s.tree) s.focusedItem > 0 then
            jsIndexOf (visibleForest s.tree) s.focusedItem - 1
          else ((visibleForest s.tree).length : Int) - 1) <
        ((visibleForest s.tree).length : Int) := by
    rcases jsIndexOf_cases (visibleForest s.tree) s.focusedItem with h | ⟨h0, h1⟩ <;>
      (split <;> omega)
  refine ⟨?_, ?_, ?_⟩
  · obtain ⟨q, hq⟩ := jsElemAt_isSome (visibleForest s.tree) _ hdownIdx.1 hdownIdx.2
    have hmem := jsElemAt_mem _ _ _ hq
    exact ⟨q, by simpa [handleArrowDown] using hq, hmem,
      visible_not_collapsed_forest q s.tree hnd hmem⟩
  · obtain ⟨q, hq⟩ := jsElemAt_isSome (visibleForest s.tree) _ hupIdx.1 hupIdx.2
    have hmem := jsElemAt_mem _ _ _ hq
    exact ⟨q, by simpa [handleArrowUp] using hq, hmem,
      visible_not_collapsed_forest q s.tree hnd hmem⟩
  · intro p i hfo hfind
    have hidx : jsIndexOf (visibleForest s.tree) s.focusedItem = (i : Int) := by
      simp [jsIndexOf, hfo, hfind]
    have hi : i < (visibleForest s.tree).length :=
      (List.findIdx?_eq_some_iff_findIdx_eq.mp hfind).1
    constructor
    · simp only [handleArrowDown, hidx]
      by_cases hcase : i + 1 < (visibleForest s.tree).length
      · have hcond : (i : Int) < ((visibleForest s.tree).length : Int) - 1 := by omega
        have ht : ((i : Int) + 1).toNat = i + 1 := by omega
        have h0 : (0 : Int) ≤ (i : Int) + 1 := by omega
        have hmod : (i + 1) % (visibleForest s.tree).length = i + 1 :=
          Nat.mod_eq_of_lt hcase
        rw [hmod]
        simp only [if_pos hcond, jsElemAt, if_pos h0, ht]
      · have heq : i + 1 = (visibleForest s.tree).length := by omega
        have hcond : ¬ ((i : Int) < ((visibleForest s.tree).length : Int) - 1) := by omega
        have hmod : (i + 1) % (visibleForest s.tree).length = 0 := by
          rw [heq]; exact Nat.mod_self _
        rw [hmod]
        simp only [if_neg hcond, jsElemAt, if_pos (le_refl (0 : Int)), Int.toNat_zero]
    · simp only [handleArrowUp, hidx]
      by_cases hcase : 0 < i
      · have hcond : (i : Int) > 0 := by omega
        have ht : ((i : Int) - 1).toNat = i - 1 := by omega
        have h0 : (0 : Int) ≤ (i : Int) - 1 := by omega
        have hmod : (i + (visibleForest s.tree).length - 1) %
            (visibleForest s.tree).length = i - 1 := by
          have h1 : i + (visibleForest s.tree).length - 1 =
              (i - 1) + (visibleForest s.tree).length := by omega
          rw [h1, Nat.add_mod_right]
          exact Nat.mod_eq_of_lt (by omega)
        rw [hmod]
        simp only [if_pos hcond, jsElemAt, if_pos h0, ht]
      · have hzero : i = 0 := by omega
        have hcond : ¬ ((i : Int) > 0) := by omega
        have ht : (((visibleForest s.tree).length : Int) - 1).toNat =
            (visibleForest s.tree).length - 1 := by omega
        have h0 : (0 : Int) ≤ ((visibleForest s.tree).length : Int) - 1 := by omega
        have hmod : (i + (visibleForest s.tree).length - 1) %
            (visibleForest s.tree).length = (visibleForest s.tree).length - 1 := by
          have h1 : i + (visibleForest s.tree).length - 1 =
              (visibleForest s.tree).length - 1 := by omega
          rw [h1]
          exact Nat.mod_eq_of_lt (by omega)
        rw [hmod]
        simp only [if_neg hcond, jsElemAt, if_pos h0, ht]

/-- A concrete rendered tree: an expanded directory holding a file and a
collapsed subdirectory (whose child is therefore invisible), then a
top-level file. -/
def exTree : List FileNode :=
  [FileNode.dir "/src" true
     [FileNode.file "/src/a.js",
      FileNode.dir "/src/sub" false [FileNode.file "/src/sub/b.js"]],
   FileNode.file "/readme.md"]

/-- Witness for C8 at exTree with the cursor on the last visible item
"/readme.md" (index 3 of 4): ArrowDown wraps to index 0 and ArrowUp stays
on a visible item with no collapsed ancestor. -/
theorem arrow_navigation_stays_visible_witness :
    (handleArrowDown ⟨exTree, some "/readme.md"⟩).focusedItem =
      (visibleForest exTree)[(3 + 1) % (visibleForest exTree).length]? ∧
    (∃ q, (handleArrowUp ⟨exTree, some "/readme.md"⟩).focusedItem = some q ∧
      q ∈ visibleForest exTree ∧ ¬ underCollapsedForest q exTree) := by
  have h := arrow_navigation_stays_visible ⟨exTree, some "/readme.md"⟩
    (by decide) (by decide)
  exact ⟨(h.2.2 "/readme.md" 3 rfl (by decide)).1, h.2.1⟩

/-! ## C7 — focus restoration on editor close -/

/-- C7 counterexample: the focus re-entry's restore condition is DOM
element containment, not item presence.  Start from a tree whose cursor
rests on the element "/readme.md" of render 0; a FILE_TREE_DATA push (as
the FILE_SAVED success handler triggers through the file-tree refresh
callback) re-renders the same forest, detaching that element while an item
with path "/readme.md" is still present — and visible — in the new tree.
The re-entry nevertheless falls back to the first visible item "/src"
instead of restoring the remembered cursor position, refuting "restores
the last remembered cursor position when that item is still present". -/
theorem rerendered_cursor_falls_back :
    "/readme.md" ∈
      visibleForest (onFileTreeData ⟨exTree, 0, some ⟨0, "/readme.md"⟩⟩ exTree).tree ∧
    (fileTreeFocus (onFileTreeData ⟨exTree, 0, some ⟨0, "/readme.md"⟩⟩ exTree)).focusedItem =
      some ⟨1, "/src"⟩ := by
  exact ⟨by decide, by decide⟩

/-- C7 amended: when a close proceeds (clean session, or confirmation
given) and both focus surfaces exist, a session opened from the file tree
hands focus to the file tree's own re-entry and any other origin hands
focus to the terminal; the re-entry restores the last remembered cursor
exactly when that DOM element still belongs to the current render — no
FILE_TREE_DATA re-render since it was remembered — and falls back to the
first visible item otherwise, even when an item with the remembered path is
still present. -/
theorem close_focus_reentry (env : FocusEnv) (s : EditorState)
    (d : FileTreeDom) (userConfirms : Bool)
    (henvF : env.fileTreeFocusAvailable = true)
    (henvT : env.terminalFocusAvailable = true)
    (hproceed : s.isModified = false ∨ userConfirms = true) :
    (s.openedFromSource = some "fileTree" →
      (closeEditor env s userConfirms).2 = [FocusEffect.fileTreeFocusCall]) ∧
    (s.openedFromSource ≠ some "fileTree" →
      (closeEditor env s userConfirms).2 = [FocusEffect.terminalFocusCall]) ∧
    (visibleForest d.tree ≠ [] →
      (∀ e, d.focusedItem = some e → e.render = d.render →
        (fileTreeFocus d).focusedItem = some e) ∧
      (∀ e, d.focusedItem = some e → e.render ≠ d.render →
        (fileTreeFocus d).focusedItem =
          (visibleForest d.tree).head?.map
            (fun p => { render := d.render, path := p })) ∧
      (d.focusedItem = none →
        (fileTreeFocus d).focusedItem =
          (visibleForest d.tree).head?.map
            (fun p => { render := d.render, path := p }))) := by
  have hcond : (s.isModified && !userConfirms) = false := by
    rcases hproceed with h | h <;> simp [h]
  refine ⟨?_, ?_, ?_⟩
  · intro h
    simp [closeEditor, hcond, h, henvF]
  · intro h
    simp [closeEditor, hcond, henvT, beq_eq_false_iff_ne.mpr h]
  · intro hne
    have hemp : (visibleForest d.tree).isEmpty = false := by
      simp [List.isEmpty_iff, hne]
    refine ⟨?_, ?_, ?_⟩
    · intro e hfo hrender
      simp [fileTreeFocus, hemp, hfo, hrender]
    · intro e hfo hrender
      have hb : (e.render == d.render) = false := by simp [hrender]
      simp [fileTreeFocus, hemp, hfo, hb]
    · intro hfo
      simp [fileTreeFocus, hemp, hfo]

/-- A file-tree DOM whose remembered cursor element belongs to the current
render. -/
def exDomCurrent : FileTreeDom :=
  { tree := exTree, render := 5, focusedItem := some ⟨5, "/readme.md"⟩ }

/-- A file-tree DOM whose remembered cursor element is from an earlier
render (detached by a re-render), though its path is still present. -/
def exDomStale : FileTreeDom :=
  { tree := exTree, render := 5, focusedItem := some ⟨4, "/readme.md"⟩ }

/-- Witness for C7's amended statement: closing the (confirmed) dirty
session opened from the file tree emits exactly the file-tree focus call;
a cursor element of the current render is restored; a cursor element of an
earlier render falls back to the first visible item. -/
theorem close_focus_reentry_witness :
    (closeEditor ⟨true, true⟩ exEditorDirty true).2 = [FocusEffect.fileTreeFocusCall] ∧
    (fileTreeFocus exDomCurrent).focusedItem = some ⟨5, "/readme.md"⟩ ∧
    (fileTreeFocus exDomStale).focusedItem = some ⟨5, "/src"⟩ := by
  have h1 := close_focus_reentry ⟨true, true⟩ exEditorDirty exDomCurrent true
    rfl rfl (Or.inr rfl)
  have h2 := close_focus_reentry ⟨true, true⟩ exEditorDirty exDomStale true
    rfl rfl (Or.inr rfl)
  refine ⟨h1.1 rfl, ?_, ?_⟩
  · exact (h1.2.2 (by decide)).1 ⟨5, "/readme.md"⟩ rfl rfl
  · have h := ((h2.2.2 (by decide)).2.1 ⟨4, "/readme.md"⟩ rfl (by decide))
    rw [h]
    decide

end Frame
